import Mathlib

/-!
Smart Notes front end: workflow controller and API client.

A shallow embedding of `src/frontend/src/App.jsx` (the React component state and
its three event handlers) and `src/frontend/src/api.js` (the two backend calls and
the URL helper), followed by the properties established about them.

Conventions of the embedding.

* A JavaScript string is its sequence of UTF-16 code units (`JsString`).
* The seven `useState` cells of `App` form the record `AppState`; a setter call
  overwrites one field.
* An `async` handler is split at its `await`: the synchronous prefix
  (`...Start`) and the continuation run when the promise settles (`...Settle`).
  Running both back to back gives the uninterrupted handler.
* Success payloads of the backend have the shape the handlers read:
  `{file_id, filename}` for upload and `{notes, cached}` for generate.
-/

namespace SmartNotes

/-! ## JavaScript strings -/

/-- A JavaScript string: the list of its UTF-16 code units. -/
abbrev JsString := List Nat

/-- UTF-16 code units of one Unicode scalar value. -/
def utf16OfChar (c : Char) : List Nat :=
  if c.toNat < 0x10000 then [c.toNat]
  else [0xD800 + (c.toNat - 0x10000) / 0x400, 0xDC00 + (c.toNat - 0x10000) % 0x400]

/-- The JavaScript string denoted by a source literal. -/
def lit (s : String) : JsString :=
  s.toList.flatMap utf16OfChar

/-! ## `App.jsx`: component state -/

/-- A `File` taken from the file input; the component reads `name` and `size` only. -/
structure File where
  name : JsString
  size : Nat
deriving DecidableEq

/-- The object stored by `setBackendFile({ fileId, filename })`. -/
structure BackendFile where
  fileId : JsString
  filename : JsString
deriving DecidableEq

/-- Body of a successful `/upload` response, as read by `handleUpload`. -/
structure UploadResponse where
  file_id : JsString
  filename : JsString
deriving DecidableEq

/-- Body of a successful `/notes/{fileId}` response, as read by `handleGenerateNotes`. -/
structure NotesResponse where
  notes : JsString
  cached : Bool
deriving DecidableEq

/-- The `useState` cells of `App` (lines 5-11). -/
structure AppState where
  file : Option File
  backendFile : Option BackendFile
  notes : JsString
  cached : Bool
  isUploading : Bool
  isGenerating : Bool
  error : JsString
deriving DecidableEq

/-- Initial values passed to `useState`. -/
def AppState.initial : AppState :=
  { file := none, backendFile := none, notes := [], cached := false,
    isUploading := false, isGenerating := false, error := [] }

deriving instance DecidableEq for Except

/-- How an awaited backend call settles, as seen by a handler: the resolved
value, or the `message` of the thrown error. -/
abbrev Settled (α : Type) := Except JsString α

/-! ## `App.jsx`: handlers -/

/-- Lines 13-18. The argument is `e.target.files` (absent, or a list). -/
def handleFileChange (s : AppState) (files : Option (List File)) : AppState :=
  { s with
    file := files.bind List.head?   -- e.target.files?.[0] ?? null
    notes := []
    cached := false
    error := [] }

/-- Lines 20-28: `handleUpload` up to the `await`. The second component is the
argument of the `uploadFile` call, when one is made. -/
def handleUploadStart (s : AppState) : AppState × Option File :=
  match s.file with
  | none => ({ s with error := lit "Please choose a file first." }, none)
  | some f =>
    ({ s with error := [], isUploading := true, notes := [], cached := false }, some f)

/-- Lines 30-37: the `try`/`catch`/`finally` of `handleUpload` once `uploadFile` settles. -/
def handleUploadSettle (s : AppState) (r : Settled UploadResponse) : AppState :=
  match r with
  | .ok res =>
    { s with backendFile := some { fileId := res.file_id, filename := res.filename },
             isUploading := false }
  | .error message => { s with error := message, isUploading := false }

/-- The handler `handleUpload` run without interruption, the backend settling with `r`. -/
def handleUpload (s : AppState) (r : Settled UploadResponse) : AppState :=
  match handleUploadStart s with
  | (s1, none) => s1
  | (s1, some _) => handleUploadSettle s1 r

/-- Lines 40-46: `handleGenerateNotes` up to the `await`. The test
`!backendFile?.fileId` holds when `backendFile` is null and when its `fileId` is the
empty string. The second component is the argument of the `generateNotes` call,
when one is made. -/
def handleGenerateNotesStart (s : AppState) : AppState × Option JsString :=
  match s.backendFile with
  | none => ({ s with error := lit "Upload a file first." }, none)
  | some bf =>
    if bf.fileId.isEmpty then ({ s with error := lit "Upload a file first." }, none)
    else ({ s with error := [], isGenerating := true }, some bf.fileId)

/-- Lines 48-56: the `try`/`catch`/`finally` of `handleGenerateNotes` once
`generateNotes` settles (`!!res.cached` is `res.cached` on a boolean). -/
def handleGenerateNotesSettle (s : AppState) (r : Settled NotesResponse) : AppState :=
  match r with
  | .ok res => { s with notes := res.notes, cached := res.cached, isGenerating := false }
  | .error message => { s with error := message, isGenerating := false }

/-- The handler `handleGenerateNotes` run without interruption. -/
def handleGenerateNotes (s : AppState) (r : Settled NotesResponse) : AppState :=
  match handleGenerateNotesStart s with
  | (s1, none) => s1
  | (s1, some _) => handleGenerateNotesSettle s1 r

/-- The `disabled` attribute of the upload button (line 106). -/
def uploadDisabled (s : AppState) : Bool :=
  s.isUploading || s.file.isNone

/-- The `disabled` attribute of the generate button (line 137). -/
def generateDisabled (s : AppState) : Bool :=
  s.isGenerating || s.backendFile.isNone

/-! ## `api.js`: values, responses, thrown errors -/

/-- A value obtained from `JSON.parse`, or `undefined`. A number is kept as the
text `String(n)` gives for it (so zero, of either sign, is `"0"`); an object is
the list of its own properties, one entry per key. -/
inductive JsVal where
  | undefined
  | null
  | bool (b : Bool)
  | num (text : JsString)
  | str (s : JsString)
  | arr (items : List JsVal)
  | obj (fields : List (JsString × JsVal))

/-- What an `async` function of `api.js` can reject with. -/
inductive Thrown where
  /-- An object built by `new Error(message)`. -/
  | error (message : JsString)
  /-- A `TypeError` raised by the runtime (property read on `null`, failed conversion). -/
  | typeError
  /-- A `SyntaxError` from `res.json()` on a body that is not JSON. -/
  | syntaxError
  /-- A `URIError` from `encodeURIComponent`. -/
  | uriError
  /-- A rejection of `fetch` itself (no response received), with its message. -/
  | transport (message : JsString)
deriving DecidableEq

/-- A `Response`: the `ok` flag and what `res.json()` resolves to (`none` when it rejects). -/
structure Response where
  ok : Bool
  json : Option JsVal

/-- The arguments of a `fetch` call: URL, method, and the fields appended to the
`FormData` body (empty when no body is sent). -/
structure Request where
  url : JsString
  method : JsString
  formData : List (JsString × File)
deriving DecidableEq

/-- How a `fetch` call settles. -/
inductive FetchResult where
  | failed (message : JsString)
  | response (res : Response)

/-- How a call of `uploadFile` or `generateNotes` settles. -/
inductive Outcome where
  | resolved (value : JsVal)
  | rejected (e : Thrown)

/-- JavaScript truthiness (`ToBoolean`). -/
def JsVal.truthy : JsVal → Bool
  | .undefined => false
  | .null => false
  | .bool b => b
  | .num text => text != lit "0"
  | .str s => !s.isEmpty
  | .arr _ => true
  | .obj _ => true

/-- The expression `a || b`. -/
def JsVal.orElse (a b : JsVal) : JsVal :=
  if a.truthy then a else b

/-- The property read `v.key` on a parsed value: a `TypeError` on `null` and
`undefined`, the own property of an object, `undefined` otherwise. -/
def JsVal.getProp (v : JsVal) (key : JsString) : Except Thrown JsVal :=
  match v with
  | .undefined => .error .typeError
  | .null => .error .typeError
  | .obj fields => .ok ((fields.lookup key).getD .undefined)
  | _ => .ok .undefined

/-- Conversion of a plain object to a string: `"[object Object]"` through
`Object.prototype.toString`, unless an own property named `toString` (never
callable in parsed JSON) hides it, in which case the conversion raises a
`TypeError` (`none`). -/
def objectToJsString : List (JsString × JsVal) → Option JsString
  | [] => some (lit "[object Object]")
  | (k, _) :: rest =>
    if k = lit "toString" then none else objectToJsString rest

mutual
/-- The method `Array.prototype.join` with separator `","`, to which the string
conversion of an array delegates. -/
def JsVal.joinItems : List JsVal → Option JsString
  | [] => some []
  | [x] => JsVal.itemToJsString x
  | x :: y :: rest =>
    match JsVal.itemToJsString x, JsVal.joinItems (y :: rest) with
    | some a, some b => some (a ++ lit "," ++ b)
    | _, _ => none
/-- One element inside `join`: `null` and `undefined` give the empty string,
any other element its string conversion. -/
def JsVal.itemToJsString : JsVal → Option JsString
  | .undefined => some []
  | .null => some []
  | .bool true => some (lit "true")
  | .bool false => some (lit "false")
  | .num text => some text
  | .str s => some s
  | .arr items => JsVal.joinItems items
  | .obj fields => objectToJsString fields
end

/-- The conversion `ToString`; `none` stands for a `TypeError`. -/
def JsVal.toJsString : JsVal → Option JsString
  | .undefined => some (lit "undefined")
  | .null => some (lit "null")
  | .arr items => JsVal.joinItems items
  | v => JsVal.itemToJsString v

/-- The statement `throw new Error(v)`: the message is `ToString(v)`. -/
def throwNewError (v : JsVal) : Thrown :=
  match v.toJsString with
  | some message => .error message
  | none => .typeError

/-! ## `api.js`: `encodeURIComponent` -/

/-- Code units that `encodeURIComponent` copies unchanged: ASCII letters, digits
and `- _ . ! ~ * ' ( )`. -/
def isUnreserved (c : Nat) : Bool :=
  (0x41 ≤ c && c ≤ 0x5A) || (0x61 ≤ c && c ≤ 0x7A) || (0x30 ≤ c && c ≤ 0x39) ||
  c == 0x2D || c == 0x5F || c == 0x2E || c == 0x21 || c == 0x7E || c == 0x2A ||
  c == 0x27 || c == 0x28 || c == 0x29

/-- A leading (high) surrogate code unit. -/
def isLeadSurrogate (c : Nat) : Bool := 0xD800 ≤ c && c ≤ 0xDBFF

/-- A trailing (low) surrogate code unit. -/
def isTrailSurrogate (c : Nat) : Bool := 0xDC00 ≤ c && c ≤ 0xDFFF

/-- The code point of a surrogate pair. -/
def surrogatePairToCodePoint (lead trail : Nat) : Nat :=
  (lead - 0xD800) * 0x400 + (trail - 0xDC00) + 0x10000

/-- UTF-8 octets of a code point. -/
def utf8Octets (cp : Nat) : List Nat :=
  if cp < 0x80 then [cp]
  else if cp < 0x800 then [0xC0 + cp / 0x40, 0x80 + cp % 0x40]
  else if cp < 0x10000 then [0xE0 + cp / 0x1000, 0x80 + cp / 0x40 % 0x40, 0x80 + cp % 0x40]
  else [0xF0 + cp / 0x40000 % 8, 0x80 + cp / 0x1000 % 0x40, 0x80 + cp / 0x40 % 0x40,
        0x80 + cp % 0x40]

/-- An upper-case hexadecimal digit, as a code unit. -/
def hexDigit (n : Nat) : Nat :=
  if n % 16 < 10 then 0x30 + n % 16 else 0x41 + (n % 16 - 10)

/-- The escape `%XX` of one octet. -/
def percentEscape (octet : Nat) : List Nat :=
  [0x25, hexDigit (octet / 16), hexDigit octet]

/-- The escapes of all UTF-8 octets of a code point. -/
def escapeCodePoint (cp : Nat) : List Nat :=
  (utf8Octets cp).flatMap percentEscape

/-- The built-in `encodeURIComponent` (the abstract operation `Encode` of
ECMAScript with no extra unescaped characters): unreserved code units are
copied, every other code point is replaced by the escapes of its UTF-8 octets,
and an unpaired surrogate raises a `URIError`. -/
def encodeURIComponent : JsString → Except Thrown JsString
  | [] => .ok []
  | [c] =>
    if isUnreserved c then .ok [c]
    else if isLeadSurrogate c || isTrailSurrogate c then .error .uriError
    else .ok (escapeCodePoint c)
  | c :: d :: rest =>
    if isUnreserved c then (encodeURIComponent (d :: rest)).map (c :: ·)
    else if isTrailSurrogate c then .error .uriError
    else if isLeadSurrogate c then
      if isTrailSurrogate d then
        (encodeURIComponent rest).map (escapeCodePoint (surrogatePairToCodePoint c d) ++ ·)
      else .error .uriError
    else (encodeURIComponent (d :: rest)).map (escapeCodePoint c ++ ·)

/-- The built-in `String.prototype.isWellFormed`: no unpaired surrogate occurs. -/
def isWellFormed : JsString → Bool
  | [] => true
  | [c] => !isLeadSurrogate c && !isTrailSurrogate c
  | c :: d :: rest =>
    if isLeadSurrogate c then isTrailSurrogate d && isWellFormed rest
    else !isTrailSurrogate c && isWellFormed (d :: rest)

/-- A digit `0`-`9` or a letter `A`-`F`, as a code unit. -/
def isUpperHex (c : Nat) : Bool :=
  (0x30 ≤ c && c ≤ 0x39) || (0x41 ≤ c && c ≤ 0x46)

/-- The text consists of unreserved code units and escapes `%XX` only: every
`%` is followed by two hexadecimal digits, and every code unit outside an escape
is unreserved. -/
def isEscapedText : List Nat → Bool
  | [] => true
  | c :: rest =>
    if c = 0x25 then
      match rest with
      | h1 :: h2 :: rest2 => isUpperHex h1 && isUpperHex h2 && isEscapedText rest2
      | _ => false
    else isUnreserved c && isEscapedText rest

/-! ## Reference decoding of a URL component -/

/-- Value of a hexadecimal digit given as a code unit. -/
def hexValue (c : Nat) : Option Nat :=
  if 0x30 ≤ c ∧ c ≤ 0x39 then some (c - 0x30)
  else if 0x41 ≤ c ∧ c ≤ 0x46 then some (c - 0x41 + 10)
  else if 0x61 ≤ c ∧ c ≤ 0x66 then some (c - 0x61 + 10)
  else none

/-- Percent-decoding (RFC 3986): each escape `%XX` gives the octet `XX`, every
other ASCII code unit gives itself. -/
def unescapeOctets : List Nat → Option (List Nat)
  | [] => some []
  | c :: rest =>
    if c = 0x25 then
      match rest with
      | h1 :: h2 :: rest2 =>
        match hexValue h1, hexValue h2, unescapeOctets rest2 with
        | some a, some b, some octets => some ((16 * a + b) :: octets)
        | _, _, _ => none
      | _ => none
    else if c < 0x80 then (unescapeOctets rest).map (c :: ·)
    else none

/-- A continuation octet `10xxxxxx` of UTF-8. -/
def isContinuation (b : Nat) : Bool := 0x80 ≤ b && b < 0xC0

/-- Reading octets as UTF-8 (RFC 3629), one octet at a time: `need` continuation
octets are still expected for the code point whose leading bits are `acc`. -/
def utf8DecodeFrom (need acc : Nat) : List Nat → Option (List Nat)
  | [] => if need = 0 then some [] else none
  | b :: rest =>
    if need = 0 then
      if b < 0x80 then (utf8DecodeFrom 0 0 rest).map (b :: ·)
      else if b < 0xC0 then none
      else if b < 0xE0 then utf8DecodeFrom 1 (b - 0xC0) rest
      else if b < 0xF0 then utf8DecodeFrom 2 (b - 0xE0) rest
      else if b < 0xF8 then utf8DecodeFrom 3 (b - 0xF0) rest
      else none
    else if isContinuation b then
      if need = 1 then (utf8DecodeFrom 0 0 rest).map ((acc * 0x40 + (b - 0x80)) :: ·)
      else utf8DecodeFrom (need - 1) (acc * 0x40 + (b - 0x80)) rest
    else none

/-- The code points spelled by a sequence of UTF-8 octets. -/
def utf8Decode (octets : List Nat) : Option (List Nat) :=
  utf8DecodeFrom 0 0 octets

/-- UTF-16 code units of a code point. -/
def utf16OfCodePoint (cp : Nat) : List Nat :=
  if cp < 0x10000 then [cp]
  else [0xD800 + (cp - 0x10000) / 0x400, 0xDC00 + (cp - 0x10000) % 0x400]

/-- The reference decoding of a URL component: undo the percent-escapes, read the
octets as UTF-8, and write the code points as a JavaScript string. -/
def percentDecodeUtf8 (text : List Nat) : Option JsString :=
  match unescapeOctets text with
  | none => none
  | some octets => (utf8Decode octets).map fun cps => cps.flatMap utf16OfCodePoint

/-! ## `api.js`: the three exported functions -/

/-- Line 1-2: `import.meta.env.VITE_API_BASE_URL || "http://localhost:8000"`. The
argument is the environment setting (`none` when unset). -/
def API_BASE_URL (env : Option JsString) : JsString :=
  match env with
  | some url => if url.isEmpty then lit "http://localhost:8000" else url
  | none => lit "http://localhost:8000"

/-- The part of both backend calls after `if (!res.ok)`: read the body as JSON,
falling back to the empty object, and throw `new Error(data.detail || generic)`. -/
def throwFromErrorBody (res : Response) (generic : JsString) : Thrown :=
  let data := res.json.getD (.obj [])        -- await res.json().catch(() => ({}))
  match data.getProp (lit "detail") with
  | .error e => e
  | .ok detail => throwNewError (detail.orElse (.str generic))

/-- The statement `return res.json()`. -/
def returnJson (res : Response) : Outcome :=
  match res.json with
  | some value => .resolved value
  | none => .rejected .syntaxError

/-- The request sent by `uploadFile` (lines 5-11). -/
def uploadRequest (env : Option JsString) (file : File) : Request :=
  { url := API_BASE_URL env ++ lit "/upload", method := lit "POST",
    formData := [(lit "file", file)] }

/-- Lines 4-19. The argument `fetch` is the behaviour of the network. -/
def uploadFile (env : Option JsString) (fetch : Request → FetchResult) (file : File) : Outcome :=
  match fetch (uploadRequest env file) with
  | .failed message => .rejected (.transport message)
  | .response res =>
    if !res.ok then .rejected (throwFromErrorBody res (lit "Failed to upload file"))
    else returnJson res

/-- The request sent by `generateNotes` (lines 22-24); building its URL can raise. -/
def generateNotesRequest (env : Option JsString) (fileId : JsString) : Except Thrown Request :=
  (encodeURIComponent fileId).map fun encoded =>
    { url := API_BASE_URL env ++ lit "/notes/" ++ encoded, method := lit "POST", formData := [] }

/-- Lines 21-32. -/
def generateNotes (env : Option JsString) (fetch : Request → FetchResult) (fileId : JsString) :
    Outcome :=
  match generateNotesRequest env fileId with
  | .error e => .rejected e
  | .ok request =>
    match fetch request with
    | .failed message => .rejected (.transport message)
    | .response res =>
      if !res.ok then .rejected (throwFromErrorBody res (lit "Failed to generate notes"))
      else returnJson res

/-- Lines 34-36. -/
def getFileUrl (env : Option JsString) (fileId : JsString) : Except Thrown JsString :=
  (encodeURIComponent fileId).map fun encoded => API_BASE_URL env ++ lit "/file/" ++ encoded

/-! ## Sequences of uninterrupted operations -/

/-- One user-level operation, with the way the backend answers it. -/
inductive Op where
  | selectFile (files : Option (List File))
  | upload (r : Settled UploadResponse)
  | generate (r : Settled NotesResponse)
deriving DecidableEq

/-- Effect of one operation on the component state. -/
def applyOp (s : AppState) : Op → AppState
  | .selectFile files => handleFileChange s files
  | .upload r => handleUpload s r
  | .generate r => handleGenerateNotes s r

/-- Effect of a sequence of operations. -/
def runOps (s : AppState) (ops : List Op) : AppState :=
  ops.foldl applyOp s

/-- The operation is an upload whose backend call is made and answered with success. -/
def uploadSucceeds (s : AppState) : Op → Bool
  | .upload (.ok _) => (handleUploadStart s).2.isSome
  | _ => false

/-- The operation is a generate whose backend call is made and answered with
success, so that notes are stored. -/
def generateSucceeds (s : AppState) : Op → Bool
  | .generate (.ok _) => (handleGenerateNotesStart s).2.isSome
  | _ => false

/-- The operation is a file selection. -/
def isSelectFile : Op → Bool
  | .selectFile _ => true
  | _ => false

/-- Operation number `i` of the sequence is a successful upload. -/
def uploadSucceedsAt (ops : List Op) (i : Nat) : Bool :=
  match ops[i]? with
  | some op => uploadSucceeds (runOps AppState.initial (ops.take i)) op
  | none => false

/-- Operation number `i` of the sequence is a successful generate. -/
def generateSucceedsAt (ops : List Op) (i : Nat) : Bool :=
  match ops[i]? with
  | some op => generateSucceeds (runOps AppState.initial (ops.take i)) op
  | none => false

/-- Operation number `i` of the sequence is a file selection. -/
def selectFileAt (ops : List Op) (i : Nat) : Bool :=
  match ops[i]? with
  | some op => isSelectFile op
  | none => false

/-! ## Interleaved execution -/

/-- What can happen to the mounted component: a file selection, a click on one of
the two buttons, or the settling of a backend call that is in flight. -/
inductive Event where
  | selectFile (files : Option (List File))
  | clickUpload
  | uploadSettled (r : Settled UploadResponse)
  | clickGenerate
  | generateSettled (r : Settled NotesResponse)
deriving DecidableEq

/-- The component state together with the number of backend calls of each kind
that have been made and have not settled yet. -/
structure Workflow where
  ui : AppState
  uploadsInFlight : Nat
  generatesInFlight : Nat
deriving DecidableEq

/-- The freshly mounted component. -/
def Workflow.initial : Workflow :=
  { ui := AppState.initial, uploadsInFlight := 0, generatesInFlight := 0 }

/-- One event. A click on a disabled button does nothing, and a call settles only
if one is in flight. -/
def step (w : Workflow) : Event → Workflow
  | .selectFile files => { w with ui := handleFileChange w.ui files }
  | .clickUpload =>
    if uploadDisabled w.ui then w
    else match handleUploadStart w.ui with
      | (s1, none) => { w with ui := s1 }
      | (s1, some _) => { w with ui := s1, uploadsInFlight := w.uploadsInFlight + 1 }
  | .uploadSettled r =>
    if w.uploadsInFlight = 0 then w
    else { w with ui := handleUploadSettle w.ui r, uploadsInFlight := w.uploadsInFlight - 1 }
  | .clickGenerate =>
    if generateDisabled w.ui then w
    else match handleGenerateNotesStart w.ui with
      | (s1, none) => { w with ui := s1 }
      | (s1, some _) => { w with ui := s1, generatesInFlight := w.generatesInFlight + 1 }
  | .generateSettled r =>
    if w.generatesInFlight = 0 then w
    else { w with ui := handleGenerateNotesSettle w.ui r,
                  generatesInFlight := w.generatesInFlight - 1 }

/-- A sequence of events. -/
def exec (w : Workflow) (events : List Event) : Workflow :=
  events.foldl step w

/-- The `fileId` of the `generateNotes` call that the event makes, if it makes one. -/
def requestIssued (w : Workflow) : Event → Option JsString
  | .clickGenerate =>
    if generateDisabled w.ui then none else (handleGenerateNotesStart w.ui).2
  | _ => none

/-- The `file_id` returned by the upload that the event completes with success, if it does. -/
def uploadCompleted (w : Workflow) : Event → Option JsString
  | .uploadSettled (.ok res) => if w.uploadsInFlight = 0 then none else some res.file_id
  | _ => none

/-- The `generateNotes` request made by event number `i`. -/
def requestIssuedAt (events : List Event) (i : Nat) : Option JsString :=
  match events[i]? with
  | some e => requestIssued (exec Workflow.initial (events.take i)) e
  | none => none

/-- The `file_id` returned by the upload completed by event number `i`. -/
def uploadCompletedAt (events : List Event) (i : Nat) : Option JsString :=
  match events[i]? with
  | some e => uploadCompleted (exec Workflow.initial (events.take i)) e
  | none => none

/-- The event is the settling of an upload call. -/
def isUploadSettled : Event → Bool
  | .uploadSettled _ => true
  | _ => false

/-- The event is the settling of a generate call. -/
def isGenerateSettled : Event → Bool
  | .generateSettled _ => true
  | _ => false

/-! ## Sample data -/

/-- A selected file. -/
def sampleFile : File := { name := lit "notes.pdf", size := 2000000 }

/-- Another selected file. -/
def otherFile : File := { name := lit "slides.pdf", size := 512 }

/-- A successful upload answer. -/
def sampleUpload : UploadResponse := { file_id := lit "abc123", filename := lit "notes.pdf" }

/-- A successful generate answer. -/
def sampleNotes : NotesResponse := { notes := lit "Section 1", cached := false }

/-- The state reached by selecting a file, uploading it and generating notes,
the backend reporting a cached result. -/
def notesReadyState : AppState :=
  runOps AppState.initial
    [.selectFile (some [sampleFile]), .upload (.ok sampleUpload),
     .generate (.ok { notes := lit "Section 1", cached := true })]

/-- The state reached when the backend answers the upload with an empty `file_id`. -/
def emptyIdState : AppState :=
  runOps AppState.initial
    [.selectFile (some [sampleFile]),
     .upload (.ok { file_id := [], filename := lit "notes.pdf" })]

/-- A state with notes on display and no file selected (the file dialog was
cancelled after a complete run). -/
def noFileState : AppState :=
  runOps notesReadyState [.selectFile (some []), .generate (.ok sampleNotes)]

/-- A network that answers every request with the given response. -/
def respondWith (res : Response) : Request → FetchResult :=
  fun _ => .response res

/-- A status-500 response with body `{"detail": "disk full"}`. -/
def diskFullResponse : Response :=
  { ok := false, json := some (.obj [(lit "detail", .str (lit "disk full"))]) }

/-- A status-500 response with body `{"detail": ""}`. -/
def emptyDetailResponse : Response :=
  { ok := false, json := some (.obj [(lit "detail", .str [])]) }

/-- A success response with body `{"file_id": "abc123", "filename": "notes.pdf"}`. -/
def uploadedResponse : Response :=
  { ok := true,
    json := some (.obj [(lit "file_id", .str (lit "abc123")),
                        (lit "filename", .str (lit "notes.pdf"))]) }

/-- Operations: select a file, upload it, select another file, generate. -/
def staleEpochOps : List Op :=
  [.selectFile (some [sampleFile]), .upload (.ok sampleUpload),
   .selectFile (some [otherFile]), .generate (.ok sampleNotes)]

/-- Events: select a file, click upload, the upload succeeds, click generate, and
click upload again while the generate call is in flight. -/
def overlappingEvents : List Event :=
  [.selectFile (some [sampleFile]), .clickUpload, .uploadSettled (.ok sampleUpload),
   .clickGenerate, .clickUpload]

/-- Events: a complete run (select, upload, generate), then upload again, and while
that upload is in flight a generate is started and succeeds before the upload does. -/
def generateDuringUploadEvents : List Event :=
  [.selectFile (some [sampleFile]), .clickUpload, .uploadSettled (.ok sampleUpload),
   .clickUpload, .clickGenerate, .generateSettled (.ok sampleNotes),
   .uploadSettled (.ok sampleUpload)]

/-! ## File selection (`handleFileChange`) -/

/-- C1, as stated, fails: from the state reached by select, upload, generate,
selecting another file leaves the stored file in place instead of making it absent. -/
theorem handleFileChange_keeps_backendFile_counterexample :
    (handleFileChange notesReadyState (some [otherFile])).file = some otherFile ∧
    (handleFileChange notesReadyState (some [otherFile])).backendFile =
      some { fileId := lit "abc123", filename := lit "notes.pdf" } ∧
    (handleFileChange notesReadyState (some [otherFile])).backendFile ≠ none := by
  decide

/-- C1, amended: whatever the prior state, handling a file selection makes the
selected file the first file of the event (or none), empties the notes, resets
the cached flag and empties the error, and leaves the stored file and the two
in-progress flags as they were. -/
theorem handleFileChange_spec (s : AppState) (files : Option (List File)) :
    (handleFileChange s files).file = files.bind List.head? ∧
    (handleFileChange s files).backendFile = s.backendFile ∧
    (handleFileChange s files).notes = [] ∧
    (handleFileChange s files).cached = false ∧
    (handleFileChange s files).error = [] ∧
    (handleFileChange s files).isUploading = s.isUploading ∧
    (handleFileChange s files).isGenerating = s.isGenerating :=
  ⟨rfl, rfl, rfl, rfl, rfl, rfl, rfl⟩

/-! ## Upload (`handleUpload`) -/

/-- C5: with no selected file, `handleUpload` stops in its synchronous part: no
`uploadFile` call is made, the error becomes exactly "Please choose a file first."
and every other cell (the stored file, notes, cached, both in-progress flags)
keeps its value; the outcome of the handler does not depend on the backend. -/
theorem handleUpload_without_file (s : AppState) (h : s.file = none) :
    (handleUploadStart s).2 = none ∧
    (handleUploadStart s).1 = { s with error := lit "Please choose a file first." } ∧
    (∀ r, handleUpload s r = { s with error := lit "Please choose a file first." }) ∧
    (∀ r, (handleUpload s r).error = lit "Please choose a file first." ∧
          (handleUpload s r).isUploading = s.isUploading ∧
          (handleUpload s r).backendFile = s.backendFile ∧
          (handleUpload s r).notes = s.notes ∧
          (handleUpload s r).cached = s.cached) := by
  simp [handleUpload, handleUploadStart, h]

/-- C5 at the state `noFileState` (notes on display, stored file present, no selection). -/
theorem handleUpload_without_file_witness :
    noFileState.file = none ∧ noFileState.notes = lit "Section 1" ∧
    ((handleUploadStart noFileState).2 = none ∧
     (handleUploadStart noFileState).1 =
       { noFileState with error := lit "Please choose a file first." } ∧
     (∀ r, handleUpload noFileState r =
       { noFileState with error := lit "Please choose a file first." }) ∧
     (∀ r, (handleUpload noFileState r).error = lit "Please choose a file first." ∧
           (handleUpload noFileState r).isUploading = noFileState.isUploading ∧
           (handleUpload noFileState r).backendFile = noFileState.backendFile ∧
           (handleUpload noFileState r).notes = noFileState.notes ∧
           (handleUpload noFileState r).cached = noFileState.cached)) :=
  ⟨by decide, by decide, handleUpload_without_file noFileState (by decide)⟩

/-! ## Generate (`handleGenerateNotes`) -/

/-- C4, as stated, fails: in the state reached by select, upload, generate (a
stored file and the notes "Section 1"), starting generate again keeps the notes,
and when the backend call then fails the old notes are still there. -/
theorem handleGenerateNotes_keeps_notes_counterexample :
    notesReadyState.backendFile.isSome = true ∧
    (handleGenerateNotesStart notesReadyState).2 = some (lit "abc123") ∧
    (handleGenerateNotesStart notesReadyState).1.notes = lit "Section 1" ∧
    (handleGenerateNotes notesReadyState (.error (lit "boom"))).error = lit "boom" ∧
    (handleGenerateNotes notesReadyState (.error (lit "boom"))).notes = lit "Section 1" ∧
    (handleGenerateNotes notesReadyState (.error (lit "boom"))).notes ≠ [] := by
  decide

/-- C6, as stated, fails in its converse half: the state reached when the backend
answers an upload with an empty `file_id` holds a stored file, yet generate takes
the validation branch (no call, error "Upload a file first."). -/
theorem handleGenerateNotes_empty_fileId_counterexample :
    emptyIdState.backendFile = some { fileId := [], filename := lit "notes.pdf" } ∧
    handleGenerateNotesStart emptyIdState =
      ({ emptyIdState with error := lit "Upload a file first." }, none) := by
  decide

/-- C6, amended: when there is no stored file, or the stored file has an empty
`fileId`, `handleGenerateNotes` stops in its synchronous part: no `generateNotes`
call is made, the error becomes exactly "Upload a file first." and every other
cell (notes, cached, `isGenerating`, ...) keeps its value, whatever the backend
would answer. Conversely, when a stored file with a non-empty `fileId` exists,
the validation branch is not taken: the error is emptied, `isGenerating` is set
and the call is made with that `fileId`. -/
theorem handleGenerateNotes_validation (s : AppState) :
    ((s.backendFile = none ∨ ∃ bf, s.backendFile = some bf ∧ bf.fileId = []) →
      handleGenerateNotesStart s = ({ s with error := lit "Upload a file first." }, none) ∧
      ∀ r, handleGenerateNotes s r = { s with error := lit "Upload a file first." }) ∧
    (∀ bf, s.backendFile = some bf → bf.fileId ≠ [] →
      handleGenerateNotesStart s =
        ({ s with error := [], isGenerating := true }, some bf.fileId)) := by
  refine ⟨?_, ?_⟩
  · rintro (h | ⟨bf, h, hid⟩)
    · simp [handleGenerateNotes, handleGenerateNotesStart, h]
    · simp [handleGenerateNotes, handleGenerateNotesStart, h, hid]
  · intro bf h hid
    cases hfid : bf.fileId with
    | nil => exact absurd hfid hid
    | cons c cs => simp [handleGenerateNotesStart, h, hfid]

/-- C6 amended, at the initial state (no stored file) and at the state reached by
select, upload, generate (stored file "abc123"). -/
theorem handleGenerateNotes_validation_witness :
    AppState.initial.backendFile = none ∧
    (handleGenerateNotesStart AppState.initial =
       ({ AppState.initial with error := lit "Upload a file first." }, none) ∧
     ∀ r, handleGenerateNotes AppState.initial r =
       { AppState.initial with error := lit "Upload a file first." }) ∧
    handleGenerateNotesStart notesReadyState =
      ({ notesReadyState with error := [], isGenerating := true }, some (lit "abc123")) :=
  ⟨rfl, (handleGenerateNotes_validation AppState.initial).1 (Or.inl rfl),
   (handleGenerateNotes_validation notesReadyState).2
     { fileId := lit "abc123", filename := lit "notes.pdf" } (by decide) (by decide)⟩

/-! ## Failure messages of `uploadFile` and `generateNotes` -/

/-- The thrown value when the parsed error body is an object: the string
conversion of its `detail` when that is truthy, the generic message otherwise. -/
theorem throwFromErrorBody_obj (ok : Bool) (fields : List (JsString × JsVal))
    (generic : JsString) :
    throwFromErrorBody { ok := ok, json := some (.obj fields) } generic =
      if ((fields.lookup (lit "detail")).getD .undefined).truthy then
        throwNewError ((fields.lookup (lit "detail")).getD .undefined)
      else .error generic := by
  simp only [throwFromErrorBody, Option.getD_some, JsVal.getProp, JsVal.orElse]
  split <;> simp [throwNewError, JsVal.toJsString, JsVal.itemToJsString]

/-- C7, as stated, fails: a non-success response whose body is `{"detail": ""}`
parses and has a detail field, yet both functions fail with their generic
message and not with the (empty) detail. -/
theorem api_empty_detail_counterexample :
    uploadFile none (respondWith emptyDetailResponse) sampleFile =
      .rejected (.error (lit "Failed to upload file")) ∧
    uploadFile none (respondWith emptyDetailResponse) sampleFile ≠ .rejected (.error []) ∧
    generateNotes none (respondWith emptyDetailResponse) (lit "abc123") =
      .rejected (.error (lit "Failed to generate notes")) ∧
    generateNotes none (respondWith emptyDetailResponse) (lit "abc123") ≠
      .rejected (.error []) := by
  refine ⟨rfl, ?_, rfl, ?_⟩
  · intro h
    have h1 : uploadFile none (respondWith emptyDetailResponse) sampleFile =
        .rejected (.error (lit "Failed to upload file")) := rfl
    rw [h1] at h
    injection h with h
    exact absurd h (by decide)
  · intro h
    have h1 : generateNotes none (respondWith emptyDetailResponse) (lit "abc123") =
        .rejected (.error (lit "Failed to generate notes")) := rfl
    rw [h1] at h
    injection h with h
    exact absurd h (by decide)

/-- C7, amended. Let the network answer the upload request and the generate
request with the response `res`.
If `res` is a non-success response: when its body does not parse, both
functions fail with their generic message ("Failed to upload file", "Failed to
generate notes"); when it parses to an object, they fail with the `detail`
itself if that is a non-empty string, and with the generic message if the
object has no `detail` or its `detail` is falsy (the empty string in particular).
If `res` is a success response: both functions return the parsed body when the
body parses, fail with the parser's `SyntaxError` when it does not, and never
fail with an `Error` carrying a message. -/
theorem api_failure_normalisation (env : Option JsString) (fetch : Request → FetchResult)
    (file : File) (fileId : JsString) (request : Request) (res : Response)
    (hu : fetch (uploadRequest env file) = .response res)
    (hr : generateNotesRequest env fileId = .ok request)
    (hg : fetch request = .response res) :
    (res.ok = false →
      (res.json = none →
        uploadFile env fetch file = .rejected (.error (lit "Failed to upload file")) ∧
        generateNotes env fetch fileId = .rejected (.error (lit "Failed to generate notes"))) ∧
      (∀ fields, res.json = some (.obj fields) →
        (∀ d, fields.lookup (lit "detail") = some (.str d) → d ≠ [] →
          uploadFile env fetch file = .rejected (.error d) ∧
          generateNotes env fetch fileId = .rejected (.error d)) ∧
        (fields.lookup (lit "detail") = none →
          uploadFile env fetch file = .rejected (.error (lit "Failed to upload file")) ∧
          generateNotes env fetch fileId =
            .rejected (.error (lit "Failed to generate notes"))) ∧
        (∀ v, fields.lookup (lit "detail") = some v → v.truthy = false →
          uploadFile env fetch file = .rejected (.error (lit "Failed to upload file")) ∧
          generateNotes env fetch fileId =
            .rejected (.error (lit "Failed to generate notes"))))) ∧
    (res.ok = true →
      (∀ v, res.json = some v →
        uploadFile env fetch file = .resolved v ∧ generateNotes env fetch fileId = .resolved v) ∧
      (res.json = none →
        uploadFile env fetch file = .rejected .syntaxError ∧
        generateNotes env fetch fileId = .rejected .syntaxError) ∧
      (∀ m, uploadFile env fetch file ≠ .rejected (.error m) ∧
            generateNotes env fetch fileId ≠ .rejected (.error m))) := by
  obtain ⟨ok, json⟩ := res
  have eu : uploadFile env fetch file =
      if !ok then .rejected (throwFromErrorBody ⟨ok, json⟩ (lit "Failed to upload file"))
      else returnJson ⟨ok, json⟩ := by
    simp only [uploadFile, hu]
  have eg : generateNotes env fetch fileId =
      if !ok then .rejected (throwFromErrorBody ⟨ok, json⟩ (lit "Failed to generate notes"))
      else returnJson ⟨ok, json⟩ := by
    simp only [generateNotes, hr, hg]
  refine ⟨?_, ?_⟩
  · intro hok
    simp only at hok
    subst hok
    simp only [Bool.not_false, if_true] at eu eg
    rw [eu, eg]
    refine ⟨?_, ?_⟩
    · intro hj
      simp only at hj
      subst hj
      exact ⟨rfl, rfl⟩
    · intro fields hj
      simp only at hj
      subst hj
      simp only [throwFromErrorBody_obj]
      refine ⟨?_, ?_, ?_⟩
      · intro d hd hne
        have ht : (JsVal.str d).truthy = true := by
          cases d with
          | nil => exact absurd rfl hne
          | cons c cs => rfl
        simp [hd, ht, throwNewError, JsVal.toJsString, JsVal.itemToJsString]
      · intro hd
        simp [hd, JsVal.truthy]
      · intro v hd hv
        simp [hd, hv]
  · intro hok
    simp only at hok
    subst hok
    simp only [Bool.not_true, Bool.false_eq_true, if_false] at eu eg
    rw [eu, eg]
    refine ⟨?_, ?_, ?_⟩
    · intro v hj
      simp only at hj
      subst hj
      exact ⟨rfl, rfl⟩
    · intro hj
      simp only at hj
      subst hj
      exact ⟨rfl, rfl⟩
    · intro m
      cases json <;> simp [returnJson]

/-- C7 amended, on the responses `{"detail": "disk full"}` (status 500) and
`{"file_id": "abc123", "filename": "notes.pdf"}` (success). -/
theorem api_failure_normalisation_witness :
    (uploadFile none (respondWith diskFullResponse) sampleFile =
       .rejected (.error (lit "disk full")) ∧
     generateNotes none (respondWith diskFullResponse) (lit "abc123") =
       .rejected (.error (lit "disk full"))) ∧
    (uploadFile none (respondWith uploadedResponse) sampleFile =
       .resolved (.obj [(lit "file_id", .str (lit "abc123")),
                        (lit "filename", .str (lit "notes.pdf"))]) ∧
     generateNotes none (respondWith uploadedResponse) (lit "abc123") =
       .resolved (.obj [(lit "file_id", .str (lit "abc123")),
                        (lit "filename", .str (lit "notes.pdf"))])) :=
  ⟨((api_failure_normalisation none (respondWith diskFullResponse) sampleFile (lit "abc123")
      { url := lit "http://localhost:8000/notes/abc123", method := lit "POST", formData := [] }
      diskFullResponse rfl rfl rfl).1 rfl).2
      [(lit "detail", .str (lit "disk full"))] rfl |>.1 (lit "disk full") rfl (by decide),
   ((api_failure_normalisation none (respondWith uploadedResponse) sampleFile (lit "abc123")
      { url := lit "http://localhost:8000/notes/abc123", method := lit "POST", formData := [] }
      uploadedResponse rfl rfl rfl).2 rfl).1 _ rfl⟩

/-! ## URL construction (`getFileUrl`, request path of `generateNotes`) -/

theorem hexDigit_isUpperHex (n : Nat) : isUpperHex (hexDigit n) = true := by
  have h : n % 16 < 16 := Nat.mod_lt _ (by decide)
  unfold hexDigit isUpperHex
  split <;> simp <;> omega

theorem isEscapedText_percentEscape (octet : Nat) (t : List Nat) :
    isEscapedText (percentEscape octet ++ t) = isEscapedText t := by
  simp [percentEscape, isEscapedText, hexDigit_isUpperHex]

theorem isEscapedText_flatMap_percentEscape (octets t : List Nat) :
    isEscapedText (octets.flatMap percentEscape ++ t) = isEscapedText t := by
  induction octets with
  | nil => rfl
  | cons o os ih =>
    rw [List.flatMap_cons, List.append_assoc, isEscapedText_percentEscape, ih]

theorem isEscapedText_escapeCodePoint (cp : Nat) (t : List Nat) :
    isEscapedText (escapeCodePoint cp ++ t) = isEscapedText t :=
  isEscapedText_flatMap_percentEscape _ _

theorem isUnreserved_ne_percent (c : Nat) (h : isUnreserved c = true) : c ≠ 0x25 := by
  rintro rfl
  exact absurd h (by decide)

theorem isEscapedText_unreserved (c : Nat) (t : List Nat) (h : isUnreserved c = true) :
    isEscapedText (c :: t) = isEscapedText t := by
  have hne := isUnreserved_ne_percent c h
  conv_lhs => unfold isEscapedText
  simp only [if_neg hne, h, Bool.true_and]

theorem unreserved_not_surrogate (c : Nat) (h : isUnreserved c = true) :
    isLeadSurrogate c = false ∧ isTrailSurrogate c = false := by
  simp only [isUnreserved, isLeadSurrogate, isTrailSurrogate, Bool.or_eq_true, Bool.and_eq_true,
    decide_eq_true_eq, beq_iff_eq, Bool.and_eq_false_iff, decide_eq_false_iff_not] at h ⊢
  omega

theorem encodeURIComponent_spec (s : JsString) :
    (isWellFormed s = true →
      ∃ out, encodeURIComponent s = .ok out ∧ isEscapedText out = true) ∧
    (isWellFormed s = false → encodeURIComponent s = .error .uriError) := by
  induction s using encodeURIComponent.induct with
  | case1 => exact ⟨fun _ => ⟨[], rfl, rfl⟩, fun h => absurd h (by decide)⟩
  | case2 c hc =>
    obtain ⟨hl, ht⟩ := unreserved_not_surrogate c hc
    refine ⟨fun _ => ⟨[c], by simp [encodeURIComponent, hc], ?_⟩, fun h => ?_⟩
    · rw [isEscapedText_unreserved c [] hc]; rfl
    · simp [isWellFormed, hl, ht] at h
  | case3 c hc hs =>
    refine ⟨fun h => ?_, fun _ => by simp [encodeURIComponent, hc, hs]⟩
    simp only [isWellFormed, Bool.and_eq_true, Bool.not_eq_true'] at h
    simp [h.1, h.2] at hs
  | case4 c hc hs =>
    refine ⟨fun _ => ⟨escapeCodePoint c, by simp [encodeURIComponent, hc, hs], ?_⟩, fun h => ?_⟩
    · have := isEscapedText_escapeCodePoint c []
      rw [List.append_nil] at this
      rw [this]; rfl
    · simp only [Bool.or_eq_true, not_or, Bool.not_eq_true] at hs
      simp [isWellFormed, hs.1, hs.2] at h
  | case5 c d rest hc ih =>
    obtain ⟨hl, ht⟩ := unreserved_not_surrogate c hc
    have hw : isWellFormed (c :: d :: rest) = isWellFormed (d :: rest) := by
      simp [isWellFormed, hl, ht]
    rw [hw]
    refine ⟨fun h => ?_, fun h => ?_⟩
    · obtain ⟨out, ho, he⟩ := ih.1 h
      refine ⟨c :: out, by simp [encodeURIComponent, hc, ho, Except.map], ?_⟩
      rw [isEscapedText_unreserved c out hc]; exact he
    · simp [encodeURIComponent, hc, ih.2 h, Except.map]
  | case6 c d rest hc ht =>
    have hl : isLeadSurrogate c = false := by
      simp only [isLeadSurrogate, isTrailSurrogate, Bool.and_eq_true, decide_eq_true_eq,
        Bool.and_eq_false_iff, decide_eq_false_iff_not] at ht ⊢
      omega
    refine ⟨fun h => ?_, fun _ => by simp [encodeURIComponent, hc, ht]⟩
    simp [isWellFormed, hl, ht] at h
  | case7 c d rest hc ht hl hd ih =>
    have hw : isWellFormed (c :: d :: rest) = isWellFormed rest := by
      simp [isWellFormed, hl, hd]
    rw [hw]
    refine ⟨fun h => ?_, fun h => ?_⟩
    · obtain ⟨out, ho, he⟩ := ih.1 h
      refine ⟨escapeCodePoint (surrogatePairToCodePoint c d) ++ out,
        by simp [encodeURIComponent, hc, ht, hl, hd, ho, Except.map], ?_⟩
      rw [isEscapedText_escapeCodePoint]; exact he
    · simp [encodeURIComponent, hc, ht, hl, hd, ih.2 h, Except.map]
  | case8 c d rest hc ht hl hd =>
    refine ⟨fun h => ?_, fun _ => by simp [encodeURIComponent, hc, ht, hl, hd]⟩
    simp [isWellFormed, hl, hd] at h
  | case9 c d rest hc ht hl ih =>
    have hw : isWellFormed (c :: d :: rest) = isWellFormed (d :: rest) := by
      simp [isWellFormed, hl, ht]
    rw [hw]
    refine ⟨fun h => ?_, fun h => ?_⟩
    · obtain ⟨out, ho, he⟩ := ih.1 h
      refine ⟨escapeCodePoint c ++ out,
        by simp [encodeURIComponent, hc, ht, hl, ho, Except.map], ?_⟩
      rw [isEscapedText_escapeCodePoint]; exact he
    · simp [encodeURIComponent, hc, ht, hl, ih.2 h, Except.map]

theorem isEscapedText_mem (out : List Nat) (h : isEscapedText out = true) :
    ∀ c ∈ out, isUnreserved c = true ∨ c = 0x25 := by
  induction out using isEscapedText.induct with
  | case1 => simp
  | case2 h1 h2 rest ih =>
    simp only [isEscapedText, if_true, Bool.and_eq_true] at h
    intro c hc
    simp only [List.mem_cons] at hc
    rcases hc with rfl | rfl | rfl | hc
    · exact Or.inr rfl
    · left
      have := h.1.1
      simp only [isUpperHex, isUnreserved, Bool.or_eq_true, Bool.and_eq_true, decide_eq_true_eq,
        beq_iff_eq] at this ⊢
      omega
    · left
      have := h.1.2
      simp only [isUpperHex, isUnreserved, Bool.or_eq_true, Bool.and_eq_true, decide_eq_true_eq,
        beq_iff_eq] at this ⊢
      omega
    · exact ih h.2 c hc
  | case3 rest hr =>
    exfalso
    cases rest with
    | nil => simp [isEscapedText] at h
    | cons a t =>
      cases t with
      | nil => simp [isEscapedText] at h
      | cons b u => exact hr a b u rfl
  | case4 c rest hc ih =>
    conv at h => lhs; unfold isEscapedText
    simp only [if_neg hc, Bool.and_eq_true] at h
    intro x hx
    simp only [List.mem_cons] at hx
    rcases hx with rfl | hx
    · exact Or.inl h.1
    · exact ih h.2 x hx

/-- C8, as stated, fails: on the one-unit string made of the unpaired surrogate
U+D800 (which `JSON.parse` produces from `"\ud800"`), `getFileUrl` does not
return a URL but raises a `URIError`, and so does the construction of the
generate-notes request. -/
theorem getFileUrl_unpaired_surrogate_counterexample :
    getFileUrl none [0xD800] = .error .uriError ∧
    generateNotesRequest none [0xD800] = .error .uriError ∧
    generateNotes none (respondWith uploadedResponse) [0xD800] = .rejected .uriError := by
  refine ⟨by decide, by decide, rfl⟩

theorem hexValue_hexDigit (n : Nat) : hexValue (hexDigit n) = some (n % 16) := by
  have h : n % 16 < 16 := Nat.mod_lt _ (by decide)
  unfold hexDigit hexValue
  split
  · rw [if_pos (by omega)]; congr 1; omega
  · rw [if_neg (by omega), if_pos (by omega)]; congr 1; omega

theorem unescapeOctets_percent (h1 h2 : Nat) (t : List Nat) :
    unescapeOctets (0x25 :: h1 :: h2 :: t) =
      match hexValue h1, hexValue h2, unescapeOctets t with
      | some a, some b, some octets => some ((16 * a + b) :: octets)
      | _, _, _ => none := by
  conv_lhs => unfold unescapeOctets
  simp

theorem unescapeOctets_percentEscape (o : Nat) (t : List Nat) (ho : o < 256) :
    unescapeOctets (percentEscape o ++ t) = (unescapeOctets t).map (o :: ·) := by
  have e : 16 * (o / 16 % 16) + o % 16 = o := by omega
  simp only [percentEscape, List.cons_append, List.nil_append, unescapeOctets_percent,
    hexValue_hexDigit]
  cases unescapeOctets t with
  | none => rfl
  | some os => simp [e]

theorem unescapeOctets_flatMap (os t : List Nat) (h : ∀ o ∈ os, o < 256) :
    unescapeOctets (os.flatMap percentEscape ++ t) = (unescapeOctets t).map (os ++ ·) := by
  induction os with
  | nil => simp
  | cons o os ih =>
    rw [List.flatMap_cons, List.append_assoc, unescapeOctets_percentEscape _ _ (h o (by simp)),
      ih (fun x hx => h x (by simp [hx]))]
    cases unescapeOctets t <;> simp

theorem utf8Octets_lt (cp : Nat) (h : cp < 0x110000) : ∀ o ∈ utf8Octets cp, o < 256 := by
  unfold utf8Octets
  intro o ho
  split at ho
  · simp at ho; omega
  · split at ho
    · simp at ho; omega
    · split at ho
      · simp at ho; omega
      · simp at ho; omega

theorem unescapeOctets_escapeCodePoint (cp : Nat) (t : List Nat) (h : cp < 0x110000) :
    unescapeOctets (escapeCodePoint cp ++ t) = (unescapeOctets t).map (utf8Octets cp ++ ·) :=
  unescapeOctets_flatMap _ _ (utf8Octets_lt cp h)

theorem unescapeOctets_ascii (c : Nat) (t : List Nat) (h1 : c ≠ 0x25) (h2 : c < 0x80) :
    unescapeOctets (c :: t) = (unescapeOctets t).map (c :: ·) := by
  conv_lhs => unfold unescapeOctets
  simp only [if_neg h1, if_pos h2]

theorem isContinuation_low (x : Nat) : isContinuation (0x80 + x % 0x40) = true := by
  simp only [isContinuation, Bool.and_eq_true, decide_eq_true_eq]
  omega

theorem utf8DecodeFrom_start (b : Nat) (rest : List Nat) :
    utf8DecodeFrom 0 0 (b :: rest) =
      if b < 0x80 then (utf8DecodeFrom 0 0 rest).map (b :: ·)
      else if b < 0xC0 then none
      else if b < 0xE0 then utf8DecodeFrom 1 (b - 0xC0) rest
      else if b < 0xF0 then utf8DecodeFrom 2 (b - 0xE0) rest
      else if b < 0xF8 then utf8DecodeFrom 3 (b - 0xF0) rest
      else none := by
  rw [utf8DecodeFrom]; simp

theorem utf8DecodeFrom_last (acc x : Nat) (rest : List Nat) :
    utf8DecodeFrom 1 acc ((0x80 + x % 0x40) :: rest) =
      (utf8DecodeFrom 0 0 rest).map ((acc * 0x40 + x % 0x40) :: ·) := by
  rw [utf8DecodeFrom]; simp [isContinuation_low]

theorem utf8DecodeFrom_more (need acc x : Nat) (rest : List Nat) :
    utf8DecodeFrom (need + 2) acc ((0x80 + x % 0x40) :: rest) =
      utf8DecodeFrom (need + 1) (acc * 0x40 + x % 0x40) rest := by
  rw [utf8DecodeFrom]; simp [isContinuation_low]

theorem utf8Decode_utf8Octets (cp : Nat) (t : List Nat) (h : cp < 0x110000) :
    utf8Decode (utf8Octets cp ++ t) = (utf8Decode t).map (cp :: ·) := by
  unfold utf8Octets utf8Decode
  by_cases h1 : cp < 0x80
  · rw [if_pos h1]
    simp only [List.cons_append, List.nil_append]
    rw [utf8DecodeFrom_start, if_pos h1]
  · rw [if_neg h1]
    by_cases h2 : cp < 0x800
    · rw [if_pos h2]
      simp only [List.cons_append, List.nil_append]
      rw [utf8DecodeFrom_start, if_neg (by omega), if_neg (by omega), if_pos (by omega),
        utf8DecodeFrom_last]
      have e : (0xC0 + cp / 0x40 - 0xC0) * 0x40 + cp % 0x40 = cp := by omega
      rw [e]
    · rw [if_neg h2]
      by_cases h3 : cp < 0x10000
      · rw [if_pos h3]
        simp only [List.cons_append, List.nil_append]
        rw [utf8DecodeFrom_start, if_neg (by omega), if_neg (by omega), if_neg (by omega),
          if_pos (by omega), utf8DecodeFrom_more 0, utf8DecodeFrom_last]
        have e : ((0xE0 + cp / 0x1000 - 0xE0) * 0x40 + cp / 0x40 % 0x40) * 0x40 + cp % 0x40 =
            cp := by omega
        rw [e]
      · rw [if_neg h3]
        simp only [List.cons_append, List.nil_append]
        rw [utf8DecodeFrom_start, if_neg (by omega), if_neg (by omega), if_neg (by omega),
          if_neg (by omega), if_pos (by omega), utf8DecodeFrom_more 1, utf8DecodeFrom_more 0,
          utf8DecodeFrom_last]
        have e : (((0xF0 + cp / 0x40000 % 8 - 0xF0) * 0x40 + cp / 0x1000 % 0x40) * 0x40 +
            cp / 0x40 % 0x40) * 0x40 + cp % 0x40 = cp := by omega
        rw [e]

theorem utf16OfCodePoint_pair (c d : Nat) (hc : isLeadSurrogate c = true)
    (hd : isTrailSurrogate d = true) :
    utf16OfCodePoint (surrogatePairToCodePoint c d) = [c, d] := by
  simp only [isLeadSurrogate, isTrailSurrogate, Bool.and_eq_true, decide_eq_true_eq] at hc hd
  unfold utf16OfCodePoint surrogatePairToCodePoint
  have e0 : ¬ ((c - 0xD800) * 0x400 + (d - 0xDC00) + 0x10000 < 0x10000) := by omega
  have e1 : 0xD800 + ((c - 0xD800) * 0x400 + (d - 0xDC00) + 0x10000 - 0x10000) / 0x400 = c := by
    omega
  have e2 : 0xDC00 + ((c - 0xD800) * 0x400 + (d - 0xDC00) + 0x10000 - 0x10000) % 0x400 = d := by
    omega
  rw [if_neg e0, e1, e2]

theorem surrogatePairToCodePoint_lt (c d : Nat) (hc : isLeadSurrogate c = true)
    (hd : isTrailSurrogate d = true) : surrogatePairToCodePoint c d < 0x110000 := by
  simp only [isLeadSurrogate, isTrailSurrogate, Bool.and_eq_true, decide_eq_true_eq] at hc hd
  unfold surrogatePairToCodePoint
  omega

theorem percentDecodeUtf8_escapeCodePoint (cp : Nat) (t : List Nat) (h : cp < 0x110000) :
    percentDecodeUtf8 (escapeCodePoint cp ++ t) =
      (percentDecodeUtf8 t).map (utf16OfCodePoint cp ++ ·) := by
  unfold percentDecodeUtf8
  rw [unescapeOctets_escapeCodePoint cp t h]
  cases unescapeOctets t with
  | none => rfl
  | some os =>
    simp only [Option.map_some', utf8Decode_utf8Octets cp os h]
    cases utf8Decode os with
    | none => rfl
    | some cps => simp

theorem percentDecodeUtf8_unreserved (c : Nat) (t : List Nat) (h : isUnreserved c = true) :
    percentDecodeUtf8 (c :: t) = (percentDecodeUtf8 t).map (c :: ·) := by
  have h1 := isUnreserved_ne_percent c h
  have h2 : c < 0x80 := by
    simp only [isUnreserved, Bool.or_eq_true, Bool.and_eq_true, decide_eq_true_eq,
      beq_iff_eq] at h
    omega
  unfold percentDecodeUtf8
  rw [unescapeOctets_ascii c t h1 h2]
  cases unescapeOctets t with
  | none => rfl
  | some os =>
    have e : utf8Decode (c :: os) = (utf8Decode os).map (c :: ·) := by
      unfold utf8Decode
      rw [utf8DecodeFrom_start, if_pos h2]
    simp only [Option.map_some', e]
    cases utf8Decode os with
    | none => rfl
    | some cps =>
      have h3 : c < 0x10000 := by omega
      simp [utf16OfCodePoint, h3]

theorem encodeURIComponent_roundtrip (s : JsString) :
    isWellFormed s = true → (∀ u ∈ s, u < 0x10000) →
      ∀ encoded, encodeURIComponent s = .ok encoded → percentDecodeUtf8 encoded = some s := by
  induction s using encodeURIComponent.induct with
  | case1 =>
    intro _ _ encoded he
    simp only [encodeURIComponent] at he
    replace he := Except.ok.inj he
    subst he
    rfl
  | case2 c hc =>
    intro _ _ encoded he
    simp only [encodeURIComponent, hc, if_true] at he
    replace he := Except.ok.inj he
    subst he
    rw [percentDecodeUtf8_unreserved c [] hc]
    rfl
  | case3 c hc hs =>
    intro _ _ encoded he
    simp [encodeURIComponent, hc, hs] at he
  | case4 c hc hs =>
    intro _ hu encoded he
    simp only [encodeURIComponent, hc, hs] at he
    simp only [Bool.false_eq_true, if_false] at he
    replace he := Except.ok.inj he
    subst he
    have hlt : c < 0x10000 := hu c (by simp)
    have := percentDecodeUtf8_escapeCodePoint c [] (by omega)
    rw [List.append_nil] at this
    rw [this]
    simp [percentDecodeUtf8, unescapeOctets, utf8Decode, utf8DecodeFrom, utf16OfCodePoint, hlt]
  | case5 c d rest hc ih =>
    intro hw hu encoded he
    obtain ⟨hl, ht⟩ := unreserved_not_surrogate c hc
    have hw2 : isWellFormed (d :: rest) = true := by
      simpa [isWellFormed, hl, ht] using hw
    simp only [encodeURIComponent, hc, if_true] at he
    cases hr : encodeURIComponent (d :: rest) with
    | error e => simp [hr, Except.map] at he
    | ok e1 =>
      simp only [hr, Except.map] at he
      replace he := Except.ok.inj he
      subst he
      rw [percentDecodeUtf8_unreserved c e1 hc,
        ih hw2 (fun u hu2 => hu u (by simp [hu2])) e1 hr]
      rfl
  | case6 c d rest hc ht =>
    intro _ _ encoded he
    simp [encodeURIComponent, hc, ht] at he
  | case7 c d rest hc ht hl hd ih =>
    intro hw hu encoded he
    have hw2 : isWellFormed rest = true := by
      simpa [isWellFormed, hl, hd] using hw
    simp only [encodeURIComponent, hc, ht, hl, hd] at he
    simp only [Bool.false_eq_true, if_false, if_true] at he
    cases hr : encodeURIComponent rest with
    | error e => simp [hr, Except.map] at he
    | ok e1 =>
      simp only [hr, Except.map] at he
      replace he := Except.ok.inj he
      subst he
      have hih := ih hw2 (fun u hu2 => hu u (by simp [hu2])) e1 hr
      have hlt := surrogatePairToCodePoint_lt c d hl hd
      have hdec := percentDecodeUtf8_escapeCodePoint (surrogatePairToCodePoint c d) e1 hlt
      rw [hdec, hih, utf16OfCodePoint_pair c d hl hd]
      simp
  | case8 c d rest hc ht hl hd =>
    intro _ _ encoded he
    simp [encodeURIComponent, hc, ht, hl, hd] at he
  | case9 c d rest hc ht hl ih =>
    intro hw hu encoded he
    have hw2 : isWellFormed (d :: rest) = true := by
      simpa [isWellFormed, hl, ht] using hw
    simp only [encodeURIComponent, hc, ht, hl] at he
    simp only [Bool.false_eq_true, if_false] at he
    cases hr : encodeURIComponent (d :: rest) with
    | error e => simp [hr, Except.map] at he
    | ok e1 =>
      simp only [hr, Except.map] at he
      replace he := Except.ok.inj he
      subst he
      have hlt : c < 0x10000 := hu c (by simp)
      rw [percentDecodeUtf8_escapeCodePoint c e1 (by omega),
        ih hw2 (fun u hu2 => hu u (by simp [hu2])) e1 hr]
      simp [utf16OfCodePoint, hlt]

theorem encodeURIComponent_unreserved (s : JsString) (h : ∀ u ∈ s, isUnreserved u = true) :
    encodeURIComponent s = .ok s := by
  induction s using encodeURIComponent.induct with
  | case1 => rfl
  | case2 c hc => simp [encodeURIComponent, hc]
  | case3 c hc hs => exact absurd (h c (by simp)) hc
  | case4 c hc hs => exact absurd (h c (by simp)) hc
  | case5 c d rest hc ih =>
    simp [encodeURIComponent, hc, ih (fun u hu => h u (by simp [hu])), Except.map]
  | case6 c d rest hc ht => exact absurd (h c (by simp)) hc
  | case7 c d rest hc ht hl hd ih => exact absurd (h c (by simp)) hc
  | case8 c d rest hc ht hl hd => exact absurd (h c (by simp)) hc
  | case9 c d rest hc ht hl ih => exact absurd (h c (by simp)) hc

/-- C8, amended. For every `fileId` without unpaired surrogate, `getFileUrl`
returns the base URL followed by "/file/" followed by `encodeURIComponent(fileId)`,
and the generate-notes request is a POST to the base URL followed by "/notes/" and
the same encoding. The encoded part is the URL-encoding of `fileId`: it consists
of unreserved characters (letters, digits, `- _ . ! ~ * ' ( )`) and escapes `%XX`
only, so it contains no "/", "?", "#", space, nor "%" outside an escape;
percent-decoding it (escapes to octets, octets read as UTF-8, code points written
as UTF-16) gives back `fileId`; and a `fileId` made of unreserved characters is
left as it is. For a `fileId` with an unpaired surrogate both raise a `URIError`. -/
theorem getFileUrl_spec (env : Option JsString) (fileId : JsString) :
    (isWellFormed fileId = true →
      ∃ encoded,
        encodeURIComponent fileId = .ok encoded ∧
        getFileUrl env fileId = .ok (API_BASE_URL env ++ lit "/file/" ++ encoded) ∧
        generateNotesRequest env fileId =
          .ok { url := API_BASE_URL env ++ lit "/notes/" ++ encoded, method := lit "POST",
                formData := [] } ∧
        isEscapedText encoded = true ∧
        (∀ c ∈ encoded, (isUnreserved c = true ∨ c = 0x25) ∧
          c ≠ 0x2F ∧ c ≠ 0x3F ∧ c ≠ 0x23 ∧ c ≠ 0x20) ∧
        ((∀ u ∈ fileId, u < 0x10000) → percentDecodeUtf8 encoded = some fileId) ∧
        ((∀ u ∈ fileId, isUnreserved u = true) → encoded = fileId)) ∧
    (isWellFormed fileId = false →
      getFileUrl env fileId = .error .uriError ∧
      generateNotesRequest env fileId = .error .uriError) := by
  refine ⟨fun h => ?_, fun h => ?_⟩
  · obtain ⟨encoded, ho, he⟩ := (encodeURIComponent_spec fileId).1 h
    refine ⟨encoded, ho, by simp [getFileUrl, ho, Except.map],
      by simp [generateNotesRequest, ho, Except.map], he, ?_,
      fun hu => encodeURIComponent_roundtrip fileId h hu encoded ho,
      fun hu => ?_⟩
    · intro c hc
      have hm := isEscapedText_mem encoded he c hc
      refine ⟨hm, ?_, ?_, ?_, ?_⟩ <;>
      · rintro rfl
        rcases hm with hm | hm
        · exact absurd hm (by decide)
        · exact absurd hm (by decide)
    · have := encodeURIComponent_unreserved fileId hu
      rw [this] at ho
      exact (Except.ok.inj ho).symm
  · have ho := (encodeURIComponent_spec fileId).2 h
    exact ⟨by simp [getFileUrl, ho, Except.map], by simp [generateNotesRequest, ho, Except.map]⟩

/-- C8 amended, at the identifier "a b/é€😀" with the default base URL (one,
two, three and four octet code points), and at the unpaired surrogate U+DC00
between two letters. -/
theorem getFileUrl_spec_witness :
    getFileUrl none (lit "a b/é€😀") =
      .ok (lit "http://localhost:8000/file/a%20b%2F%C3%A9%E2%82%AC%F0%9F%98%80") ∧
    generateNotesRequest none (lit "a b/é€😀") =
      .ok { url := lit "http://localhost:8000/notes/a%20b%2F%C3%A9%E2%82%AC%F0%9F%98%80",
            method := lit "POST", formData := [] } ∧
    percentDecodeUtf8 (lit "a%20b%2F%C3%A9%E2%82%AC%F0%9F%98%80") = some (lit "a b/é€😀") ∧
    (getFileUrl none [0x61, 0xDC00, 0x62] = .error .uriError ∧
     generateNotesRequest none [0x61, 0xDC00, 0x62] = .error .uriError) := by
  obtain ⟨encoded, he, hu, hr, _, _, hd, _⟩ :=
    (getFileUrl_spec none (lit "a b/é€😀")).1 (by decide)
  have hv : encodeURIComponent (lit "a b/é€😀") = .ok (lit "a%20b%2F%C3%A9%E2%82%AC%F0%9F%98%80") := by
    rfl
  rw [hv] at he
  have hen : encoded = lit "a%20b%2F%C3%A9%E2%82%AC%F0%9F%98%80" := (Except.ok.inj he).symm
  subst hen
  exact ⟨hu, hr, hd (by decide), (getFileUrl_spec none [0x61, 0xDC00, 0x62]).2 (by decide)⟩

/-! ## Sequences of operations: notes require an earlier upload -/

theorem runOps_snoc (s : AppState) (pre : List Op) (op : Op) :
    runOps s (pre ++ [op]) = applyOp (runOps s pre) op := by
  simp [runOps, List.foldl_append]

theorem uploadSucceedsAt_append (pre post : List Op) (j : Nat) (h : j < pre.length) :
    uploadSucceedsAt (pre ++ post) j = uploadSucceedsAt pre j := by
  simp only [uploadSucceedsAt, List.getElem?_append_left h,
    List.take_append_of_le_length (Nat.le_of_lt h)]

theorem uploadSucceedsAt_take (ops : List Op) (i j : Nat) (h : j < i) :
    uploadSucceedsAt (ops.take i) j = uploadSucceedsAt ops j := by
  simp only [uploadSucceedsAt, List.getElem?_take_of_lt h, List.take_take,
    Nat.min_eq_left (Nat.le_of_lt h)]

theorem handleGenerateNotesStart_backendFile (s : AppState) :
    (handleGenerateNotesStart s).1.backendFile = s.backendFile := by
  unfold handleGenerateNotesStart
  split
  · rfl
  · split <;> rfl

theorem handleGenerateNotesSettle_backendFile (s : AppState) (r : Settled NotesResponse) :
    (handleGenerateNotesSettle s r).backendFile = s.backendFile := by
  cases r <;> rfl

theorem handleGenerateNotes_backendFile (s : AppState) (r : Settled NotesResponse) :
    (handleGenerateNotes s r).backendFile = s.backendFile := by
  have h1 := handleGenerateNotesStart_backendFile s
  unfold handleGenerateNotes
  split
  · next s1 heq => rw [heq] at h1; exact h1
  · next s1 _ heq =>
    rw [heq] at h1
    rw [handleGenerateNotesSettle_backendFile]; exact h1

theorem backendFile_from_upload (pre : List Op) :
    (runOps AppState.initial pre).backendFile.isSome = true →
      ∃ j, j < pre.length ∧ uploadSucceedsAt pre j = true := by
  induction pre using List.reverseRecOn with
  | nil => intro h; exact absurd h (by decide)
  | append_singleton pre op ih =>
    intro h
    rw [runOps_snoc] at h
    have keep : (runOps AppState.initial pre).backendFile.isSome = true →
        ∃ j, j < (pre ++ [op]).length ∧ uploadSucceedsAt (pre ++ [op]) j = true := by
      intro h0
      obtain ⟨j, hj, hu⟩ := ih h0
      exact ⟨j, by simp; omega, by rw [uploadSucceedsAt_append _ _ _ hj]; exact hu⟩
    cases op with
    | selectFile files => exact keep h
    | generate r =>
      apply keep
      simpa only [applyOp, handleGenerateNotes_backendFile] using h
    | upload r =>
      cases hf : (runOps AppState.initial pre).file with
      | none =>
        apply keep
        simpa [applyOp, handleUpload, handleUploadStart, hf] using h
      | some f =>
        cases r with
        | error m =>
          apply keep
          simpa [applyOp, handleUpload, handleUploadStart, handleUploadSettle, hf] using h
        | ok res =>
          refine ⟨pre.length, by simp, ?_⟩
          simp [uploadSucceedsAt, uploadSucceeds, handleUploadStart, hf]

/-- C2, as stated, fails: in the sequence select, upload (success), select
another file, generate (success), the generate succeeds although no upload has
succeeded after the most recent file selection. -/
theorem generate_in_stale_epoch_counterexample :
    ¬ (∀ i, i < staleEpochOps.length → generateSucceedsAt staleEpochOps i = true →
        ∃ j, j < i ∧ uploadSucceedsAt staleEpochOps j = true ∧
          ∀ k, k < i → j < k → selectFileAt staleEpochOps k = false) := by
  decide

/-- C2, amended: in every finite sequence of select, upload and generate
operations with arbitrary backend outcomes, starting from the initial state,
whenever a generate operation succeeds, some upload operation has succeeded
earlier in the sequence (not necessarily after the most recent file selection,
which leaves the stored file in place). -/
theorem generate_success_after_upload (ops : List Op) (i : Nat)
    (h : generateSucceedsAt ops i = true) :
    ∃ j, j < i ∧ uploadSucceedsAt ops j = true := by
  unfold generateSucceedsAt at h
  cases hop : ops[i]? with
  | none => simp [hop] at h
  | some op =>
    rw [hop] at h
    simp only at h
    have hb : (runOps AppState.initial (ops.take i)).backendFile.isSome = true := by
      cases op with
      | selectFile files => simp [generateSucceeds] at h
      | upload r => simp [generateSucceeds] at h
      | generate r =>
        cases r with
        | error m => simp [generateSucceeds] at h
        | ok res =>
          simp only [generateSucceeds, handleGenerateNotesStart] at h
          cases hbf : (runOps AppState.initial (ops.take i)).backendFile with
          | none => simp [hbf] at h
          | some bf => rfl
    obtain ⟨j, hj, hu⟩ := backendFile_from_upload (ops.take i) hb
    have hji : j < i := lt_of_lt_of_le hj (by simp)
    exact ⟨j, hji, by rw [← uploadSucceedsAt_take ops i j hji]; exact hu⟩

/-- C2 amended, on the sequence select, upload, select, generate: the generate at
position 3 succeeds, and an upload succeeded before it. -/
theorem generate_success_after_upload_witness :
    generateSucceedsAt staleEpochOps 3 = true ∧
    ∃ j, j < 3 ∧ uploadSucceedsAt staleEpochOps j = true :=
  ⟨by decide, generate_success_after_upload staleEpochOps 3 (by decide)⟩

/-! ## Interleaved execution: calls in flight and origin of the `fileId` -/

theorem handleUploadStart_backendFile (s : AppState) :
    (handleUploadStart s).1.backendFile = s.backendFile := by
  unfold handleUploadStart
  split <;> rfl

theorem exec_snoc (w : Workflow) (pre : List Event) (e : Event) :
    exec w (pre ++ [e]) = step (exec w pre) e := by
  simp [exec, List.foldl_append]

theorem step_backendFile (w : Workflow) (e : Event) :
    (step w e).ui.backendFile = w.ui.backendFile ∨
    ∃ res : UploadResponse, uploadCompleted w e = some res.file_id ∧
      (step w e).ui.backendFile = some { fileId := res.file_id, filename := res.filename } := by
  cases e with
  | selectFile files => exact Or.inl rfl
  | clickUpload =>
    left
    have h1 := handleUploadStart_backendFile w.ui
    simp only [step]
    split
    · rfl
    · split
      · next s1 heq => rw [heq] at h1; exact h1
      · next s1 _ heq => rw [heq] at h1; exact h1
  | clickGenerate =>
    left
    have h1 := handleGenerateNotesStart_backendFile w.ui
    simp only [step]
    split
    · rfl
    · split
      · next s1 heq => rw [heq] at h1; exact h1
      · next s1 _ heq => rw [heq] at h1; exact h1
  | generateSettled r =>
    left
    simp only [step]
    split
    · rfl
    · exact handleGenerateNotesSettle_backendFile _ _
  | uploadSettled r =>
    simp only [step]
    split
    · exact Or.inl rfl
    · next hz =>
      cases r with
      | error m => exact Or.inl rfl
      | ok res =>
        right
        exact ⟨res, by simp [uploadCompleted, hz], rfl⟩

theorem uploadCompletedAt_append (pre post : List Event) (j : Nat) (h : j < pre.length) :
    uploadCompletedAt (pre ++ post) j = uploadCompletedAt pre j := by
  simp only [uploadCompletedAt, List.getElem?_append_left h,
    List.take_append_of_le_length (Nat.le_of_lt h)]

theorem uploadCompletedAt_take (events : List Event) (i j : Nat) (h : j < i) :
    uploadCompletedAt (events.take i) j = uploadCompletedAt events j := by
  simp only [uploadCompletedAt, List.getElem?_take_of_lt h, List.take_take,
    Nat.min_eq_left (Nat.le_of_lt h)]

theorem stored_fileId_from_upload (pre : List Event) (bf : BackendFile) :
    (exec Workflow.initial pre).ui.backendFile = some bf →
      ∃ j, j < pre.length ∧ uploadCompletedAt pre j = some bf.fileId := by
  induction pre using List.reverseRecOn generalizing bf with
  | nil => intro h; exact absurd h (by simp [exec, Workflow.initial, AppState.initial])
  | append_singleton pre e ih =>
    intro h
    rw [exec_snoc] at h
    rcases step_backendFile (exec Workflow.initial pre) e with hk | ⟨res, hc, hs⟩
    · rw [hk] at h
      obtain ⟨j, hj, hu⟩ := ih bf h
      exact ⟨j, by simp; omega, by rw [uploadCompletedAt_append _ _ _ hj]; exact hu⟩
    · rw [hs] at h
      injection h with h
      subst h
      refine ⟨pre.length, by simp, ?_⟩
      simp [uploadCompletedAt, hc]

/-- C10: in every sequence of events from the freshly mounted component, each
`generateNotes` request is made with a `fileId` that an earlier event of the
sequence stored as the `file_id` of a successfully completed upload. -/
theorem generate_request_from_upload (events : List Event) (i : Nat) (fileId : JsString)
    (h : requestIssuedAt events i = some fileId) :
    ∃ j, j < i ∧ uploadCompletedAt events j = some fileId := by
  unfold requestIssuedAt at h
  cases he : events[i]? with
  | none => simp [he] at h
  | some e =>
    rw [he] at h
    simp only at h
    have hb : ∃ bf, (exec Workflow.initial (events.take i)).ui.backendFile = some bf ∧
        bf.fileId = fileId := by
      cases e with
      | clickGenerate =>
        simp only [requestIssued, handleGenerateNotesStart] at h
        split at h
        · exact absurd h (by simp)
        · cases hbf : (exec Workflow.initial (events.take i)).ui.backendFile with
          | none => simp [hbf] at h
          | some bf =>
            refine ⟨bf, rfl, ?_⟩
            simp only [hbf] at h
            split at h
            · exact absurd h (by simp)
            · simpa using h
      | selectFile files => simp [requestIssued] at h
      | clickUpload => simp [requestIssued] at h
      | uploadSettled r => simp [requestIssued] at h
      | generateSettled r => simp [requestIssued] at h
    obtain ⟨bf, hbf, hid⟩ := hb
    obtain ⟨j, hj, hu⟩ := stored_fileId_from_upload (events.take i) bf hbf
    have hji : j < i := lt_of_lt_of_le hj (by simp)
    exact ⟨j, hji, by rw [← uploadCompletedAt_take events i j hji, hu, hid]⟩

/-- C10 on the events select, click upload, upload succeeds with "abc123", click
generate, click upload: the request of event 3 carries "abc123". -/
theorem generate_request_from_upload_witness :
    requestIssuedAt overlappingEvents 3 = some (lit "abc123") ∧
    ∃ j, j < 3 ∧ uploadCompletedAt overlappingEvents j = some (lit "abc123") :=
  ⟨by decide, generate_request_from_upload overlappingEvents 3 (lit "abc123") (by decide)⟩

theorem step_flags (w : Workflow) (e : Event)
    (h : w.uploadsInFlight = (if w.ui.isUploading then 1 else 0) ∧
         w.generatesInFlight = (if w.ui.isGenerating then 1 else 0)) :
    (step w e).uploadsInFlight = (if (step w e).ui.isUploading then 1 else 0) ∧
    (step w e).generatesInFlight = (if (step w e).ui.isGenerating then 1 else 0) := by
  obtain ⟨ui, nu, ng⟩ := w
  obtain ⟨file, bf, notes, cached, isU, isG, err⟩ := ui
  simp only at h
  obtain ⟨hu, hg⟩ := h
  cases e with
  | selectFile files => exact ⟨hu, hg⟩
  | clickUpload =>
    cases isU <;> cases file <;>
      simp_all [step, uploadDisabled, handleUploadStart]
  | clickGenerate =>
    cases isG <;> rcases bf with _ | ⟨⟨_ | ⟨c, cs⟩, fname⟩⟩ <;>
      simp_all [step, generateDisabled, handleGenerateNotesStart]
  | uploadSettled r =>
    cases isU <;> cases r <;> simp_all [step, handleUploadSettle]
  | generateSettled r =>
    cases isG <;> cases r <;> simp_all [step, handleGenerateNotesSettle]

/-- C3, as stated, fails: after select, click upload, upload success, click
generate, click upload (each click on an enabled button), `isUploading` and
`isGenerating` are both true and two backend calls are in flight. -/
theorem overlapping_calls_counterexample :
    (exec Workflow.initial overlappingEvents).ui.isUploading = true ∧
    (exec Workflow.initial overlappingEvents).ui.isGenerating = true ∧
    (exec Workflow.initial overlappingEvents).uploadsInFlight +
      (exec Workflow.initial overlappingEvents).generatesInFlight = 2 := by
  decide

/-- C3, amended: in every state reached from the freshly mounted component (a
button reacting only while enabled), the number of upload calls in flight is 1
when `isUploading` is true and 0 otherwise, and likewise for generate calls and
`isGenerating`; hence at most one call of each kind is in flight (an upload and
a generate may overlap). -/
theorem inFlight_bounded (events : List Event) :
    (exec Workflow.initial events).uploadsInFlight =
      (if (exec Workflow.initial events).ui.isUploading then 1 else 0) ∧
    (exec Workflow.initial events).generatesInFlight =
      (if (exec Workflow.initial events).ui.isGenerating then 1 else 0) ∧
    (exec Workflow.initial events).uploadsInFlight ≤ 1 ∧
    (exec Workflow.initial events).generatesInFlight ≤ 1 := by
  have key : (exec Workflow.initial events).uploadsInFlight =
      (if (exec Workflow.initial events).ui.isUploading then 1 else 0) ∧
    (exec Workflow.initial events).generatesInFlight =
      (if (exec Workflow.initial events).ui.isGenerating then 1 else 0) := by
    induction events using List.reverseRecOn with
    | nil => exact ⟨rfl, rfl⟩
    | append_singleton pre e ih => rw [exec_snoc]; exact step_flags _ _ ih
  refine ⟨key.1, key.2, ?_, ?_⟩
  · rw [key.1]; split <;> simp
  · rw [key.2]; split <;> simp

/-! ## The two asynchronous handlers under interleaving -/

theorem exec_cons (w : Workflow) (e : Event) (rest : List Event) :
    exec w (e :: rest) = exec (step w e) rest := rfl

theorem exec_append (w : Workflow) (pre post : List Event) :
    exec w (pre ++ post) = exec (exec w pre) post := by
  simp [exec, List.foldl_append]

theorem step_keeps_upload_pending (w : Workflow) (e : Event)
    (h1 : w.ui.isUploading = true) (h2 : w.uploadsInFlight ≠ 0)
    (he : isUploadSettled e = false) :
    (step w e).ui.isUploading = true ∧ (step w e).uploadsInFlight = w.uploadsInFlight := by
  obtain ⟨ui, nu, ng⟩ := w
  obtain ⟨file, bf, notes, cached, isU, isG, err⟩ := ui
  simp only at h1 h2
  subst h1
  cases e with
  | selectFile files => exact ⟨rfl, rfl⟩
  | clickUpload => simp [step, uploadDisabled]
  | uploadSettled r => simp [isUploadSettled] at he
  | clickGenerate =>
    cases isG <;> rcases bf with _ | ⟨⟨_ | ⟨c, cs⟩, fname⟩⟩ <;>
      simp [step, generateDisabled, handleGenerateNotesStart]
  | generateSettled r =>
    simp only [step]
    split
    · exact ⟨rfl, rfl⟩
    · cases r <;> exact ⟨rfl, rfl⟩

theorem exec_keeps_upload_pending (mid : List Event) :
    ∀ (w : Workflow), w.ui.isUploading = true → w.uploadsInFlight ≠ 0 →
      (∀ e ∈ mid, isUploadSettled e = false) →
      (exec w mid).ui.isUploading = true ∧ (exec w mid).uploadsInFlight = w.uploadsInFlight := by
  induction mid with
  | nil => intro w h1 _ _; exact ⟨h1, rfl⟩
  | cons e rest ih =>
    intro w h1 h2 hmid
    obtain ⟨s1, s2⟩ := step_keeps_upload_pending w e h1 h2 (hmid e (by simp))
    rw [exec_cons]
    obtain ⟨r1, r2⟩ := ih (step w e) s1 (by rw [s2]; exact h2)
      (fun x hx => hmid x (by simp [hx]))
    exact ⟨r1, by rw [r2, s2]⟩

theorem step_keeps_generate_pending (w : Workflow) (e : Event)
    (h1 : w.ui.isGenerating = true) (h2 : w.generatesInFlight ≠ 0)
    (he : isGenerateSettled e = false) :
    (step w e).ui.isGenerating = true ∧
      (step w e).generatesInFlight = w.generatesInFlight := by
  obtain ⟨ui, nu, ng⟩ := w
  obtain ⟨file, bf, notes, cached, isU, isG, err⟩ := ui
  simp only at h1 h2
  subst h1
  cases e with
  | selectFile files => exact ⟨rfl, rfl⟩
  | clickGenerate => simp [step, generateDisabled]
  | generateSettled r => simp [isGenerateSettled] at he
  | clickUpload =>
    cases isU <;> cases file <;> simp [step, uploadDisabled, handleUploadStart]
  | uploadSettled r =>
    simp only [step]
    split
    · exact ⟨rfl, rfl⟩
    · cases r <;> exact ⟨rfl, rfl⟩

theorem exec_keeps_generate_pending (mid : List Event) :
    ∀ (w : Workflow), w.ui.isGenerating = true → w.generatesInFlight ≠ 0 →
      (∀ e ∈ mid, isGenerateSettled e = false) →
      (exec w mid).ui.isGenerating = true ∧
        (exec w mid).generatesInFlight = w.generatesInFlight := by
  induction mid with
  | nil => intro w h1 _ _; exact ⟨h1, rfl⟩
  | cons e rest ih =>
    intro w h1 h2 hmid
    obtain ⟨s1, s2⟩ := step_keeps_generate_pending w e h1 h2 (hmid e (by simp))
    rw [exec_cons]
    obtain ⟨r1, r2⟩ := ih (step w e) s1 (by rw [s2]; exact h2)
      (fun x hx => hmid x (by simp [hx]))
    exact ⟨r1, by rw [r2, s2]⟩

theorem step_uploadSettled_ok (w : Workflow) (res : UploadResponse)
    (hne : w.uploadsInFlight ≠ 0) :
    (step w (.uploadSettled (.ok res))).ui =
      { w.ui with backendFile := some { fileId := res.file_id, filename := res.filename },
                  isUploading := false } := by
  simp [step, hne, handleUploadSettle]

theorem step_generateSettled_error (w : Workflow) (message : JsString)
    (hne : w.generatesInFlight ≠ 0) :
    (step w (.generateSettled (.error message))).ui =
      { w.ui with error := message, isGenerating := false } := by
  simp [step, hne, handleGenerateNotesSettle]

/-- C9, as stated, fails: after a complete run, the user clicks upload (a file
is selected, the button is enabled), then clicks generate while the upload is in
flight; the generate call succeeds first, and when the upload then completes
with success the stored file is set and `isUploading` is false, but the notes
are "Section 1", not empty. -/
theorem upload_interrupted_counterexample :
    (exec Workflow.initial (generateDuringUploadEvents.take 3)).ui.file = some sampleFile ∧
    uploadDisabled (exec Workflow.initial (generateDuringUploadEvents.take 3)).ui = false ∧
    uploadCompletedAt generateDuringUploadEvents 6 = some (lit "abc123") ∧
    (exec Workflow.initial generateDuringUploadEvents).ui.backendFile =
      some { fileId := lit "abc123", filename := lit "notes.pdf" } ∧
    (exec Workflow.initial generateDuringUploadEvents).ui.isUploading = false ∧
    (exec Workflow.initial generateDuringUploadEvents).ui.notes = lit "Section 1" ∧
    (exec Workflow.initial generateDuringUploadEvents).ui.notes ≠ [] := by
  decide

/-- C9, amended: in every state with a file selected, for every successful
upload answer `{file_id, filename}`: the synchronous part of `handleUpload` makes
the `uploadFile` call with that file, empties error and notes, resets `cached`
and sets `isUploading`; the continuation sets the stored file to
`{fileId: file_id, filename}` and `isUploading` to false and writes no other
cell. Run without interruption, the handler therefore ends with that stored
file, empty error, `isUploading` false, empty notes, `cached` false and the
selected file unchanged. With any events handled while the call is in flight,
the state after the call settles is the state just before it settles with the
stored file set and `isUploading` false (so notes, `cached`, error and selected
file are as those events left them). -/
theorem handleUpload_success (s : AppState) (f : File) (res : UploadResponse)
    (h : s.file = some f) :
    handleUploadStart s =
      ({ s with error := [], isUploading := true, notes := [], cached := false }, some f) ∧
    (∀ s1, handleUploadSettle s1 (.ok res) =
      { s1 with backendFile := some { fileId := res.file_id, filename := res.filename },
                isUploading := false }) ∧
    handleUpload s (.ok res) =
      { s with backendFile := some { fileId := res.file_id, filename := res.filename },
               error := [], isUploading := false, notes := [], cached := false } ∧
    (handleUpload s (.ok res)).file = some f ∧
    (∀ (w : Workflow) (mid : List Event), w.ui = s → s.isUploading = false →
      (∀ e ∈ mid, isUploadSettled e = false) →
      (exec w (.clickUpload :: mid)).ui.isUploading = true ∧
      (exec w (.clickUpload :: mid ++ [.uploadSettled (.ok res)])).ui =
        { (exec w (.clickUpload :: mid)).ui with
          backendFile := some { fileId := res.file_id, filename := res.filename },
          isUploading := false } ∧
      (mid = [] →
        (exec w (.clickUpload :: mid ++ [.uploadSettled (.ok res)])).ui =
          { s with backendFile := some { fileId := res.file_id, filename := res.filename },
                   error := [], isUploading := false, notes := [], cached := false })) := by
  refine ⟨by simp [handleUploadStart, h], fun _ => rfl,
    by simp [handleUpload, handleUploadStart, handleUploadSettle, h],
    by simp [handleUpload, handleUploadStart, handleUploadSettle, h], ?_⟩
  intro w mid hw hu hmid
  have hstep : step w .clickUpload =
      { w with ui := { s with error := [], isUploading := true, notes := [], cached := false },
               uploadsInFlight := w.uploadsInFlight + 1 } := by
    simp [step, uploadDisabled, handleUploadStart, hw, hu, h]
  have hp := exec_keeps_upload_pending mid (step w .clickUpload)
    (by rw [hstep]) (by rw [hstep]; simp) hmid
  have hfin : (exec w (.clickUpload :: mid ++ [.uploadSettled (.ok res)])).ui =
      { (exec w (.clickUpload :: mid)).ui with
        backendFile := some { fileId := res.file_id, filename := res.filename },
        isUploading := false } := by
    rw [exec_append]
    simp only [exec_cons]
    have hne : (exec (step w .clickUpload) mid).uploadsInFlight ≠ 0 := by
      rw [hp.2, hstep]; simp
    exact step_uploadSettled_ok _ res hne
  refine ⟨by rw [exec_cons]; exact hp.1, hfin, ?_⟩
  intro hm
  subst hm
  rw [hfin]
  simp [exec, hstep]

/-- C9 amended, at the state reached by select, upload, generate: uploading
again, alone and with a generate started and completed while the upload is in flight. -/
theorem handleUpload_success_witness :
    notesReadyState.file = some sampleFile ∧
    handleUpload notesReadyState (.ok sampleUpload) =
      { notesReadyState with
        backendFile := some { fileId := sampleUpload.file_id,
                              filename := sampleUpload.filename },
        error := [], isUploading := false, notes := [], cached := false } ∧
    (exec ⟨notesReadyState, 0, 0⟩
        (.clickUpload :: [.clickGenerate, .generateSettled (.ok sampleNotes)] ++
          [.uploadSettled (.ok sampleUpload)])).ui =
      { (exec ⟨notesReadyState, 0, 0⟩
          (.clickUpload :: [.clickGenerate, .generateSettled (.ok sampleNotes)])).ui with
        backendFile := some { fileId := sampleUpload.file_id,
                              filename := sampleUpload.filename },
        isUploading := false } :=
  ⟨by decide,
   (handleUpload_success notesReadyState sampleFile sampleUpload (by decide)).2.2.1,
   ((handleUpload_success notesReadyState sampleFile sampleUpload (by decide)).2.2.2.2
      ⟨notesReadyState, 0, 0⟩ [.clickGenerate, .generateSettled (.ok sampleNotes)]
      rfl (by decide) (by decide)).2.1⟩

/-- C4, amended: in every state with a stored file, starting generate leaves the
notes and the cached flag as they are (with a non-empty `fileId` it empties the
error, sets `isGenerating` and makes the call; with an empty one it only sets the
error "Upload a file first."), and when the call fails the continuation sets the
error to the failure message and `isGenerating` to false and writes no other
cell. Run without interruption, a failing generate therefore ends in the prior
state with the failure message as error and `isGenerating` false, notes and
`cached` unchanged. With any events handled while the call is in flight, the
state after the failure is the state just before it with the error replaced and
`isGenerating` false (notes and `cached` are as those events left them). -/
theorem handleGenerateNotes_failure (s : AppState) (bf : BackendFile) (message : JsString)
    (h : s.backendFile = some bf) :
    (handleGenerateNotesStart s).1.notes = s.notes ∧
    (handleGenerateNotesStart s).1.cached = s.cached ∧
    (∀ s1, handleGenerateNotesSettle s1 (.error message) =
      { s1 with error := message, isGenerating := false }) ∧
    (bf.fileId ≠ [] →
      handleGenerateNotes s (.error message) =
        { s with error := message, isGenerating := false }) ∧
    (bf.fileId = [] →
      handleGenerateNotes s (.error message) =
        { s with error := lit "Upload a file first." }) ∧
    (∀ (w : Workflow) (mid : List Event), w.ui = s → bf.fileId ≠ [] →
      s.isGenerating = false → (∀ e ∈ mid, isGenerateSettled e = false) →
      (step w .clickGenerate).ui = { s with error := [], isGenerating := true } ∧
      (exec w (.clickGenerate :: mid ++ [.generateSettled (.error message)])).ui =
        { (exec w (.clickGenerate :: mid)).ui with error := message, isGenerating := false } ∧
      (mid = [] →
        (exec w (.clickGenerate :: mid ++ [.generateSettled (.error message)])).ui =
          { s with error := message, isGenerating := false })) := by
  have hstart : bf.fileId ≠ [] → handleGenerateNotesStart s =
      ({ s with error := [], isGenerating := true }, some bf.fileId) := by
    intro hid
    cases hfid : bf.fileId with
    | nil => exact absurd hfid hid
    | cons c cs => simp [handleGenerateNotesStart, h, hfid]
  refine ⟨?_, ?_, fun _ => rfl, ?_, ?_, ?_⟩
  · cases hid : bf.fileId <;> simp [handleGenerateNotesStart, h, hid]
  · cases hid : bf.fileId <;> simp [handleGenerateNotesStart, h, hid]
  · intro hid
    simp [handleGenerateNotes, hstart hid, handleGenerateNotesSettle]
  · intro hid
    simp [handleGenerateNotes, handleGenerateNotesStart, h, hid]
  · intro w mid hw hid hg hmid
    have hstep : step w .clickGenerate =
        { w with ui := { s with error := [], isGenerating := true },
                 generatesInFlight := w.generatesInFlight + 1 } := by
      simp [step, generateDisabled, hw, hg, h, hstart hid]
    have hp := exec_keeps_generate_pending mid (step w .clickGenerate)
      (by rw [hstep]) (by rw [hstep]; simp) hmid
    have hfin : (exec w (.clickGenerate :: mid ++ [.generateSettled (.error message)])).ui =
        { (exec w (.clickGenerate :: mid)).ui with error := message, isGenerating := false } := by
      rw [exec_append]
      simp only [exec_cons]
      have hne : (exec (step w .clickGenerate) mid).generatesInFlight ≠ 0 := by
        rw [hp.2, hstep]; simp
      exact step_generateSettled_error _ message hne
    refine ⟨by rw [hstep], hfin, ?_⟩
    intro hm
    subst hm
    rw [hfin]
    simp [exec, hstep]

/-- C4 amended, at the state reached by select, upload, generate: a failing
generate, alone and with an upload started while the generate is in flight. -/
theorem handleGenerateNotes_failure_witness :
    notesReadyState.backendFile =
      some { fileId := lit "abc123", filename := lit "notes.pdf" } ∧
    (handleGenerateNotesStart notesReadyState).1.notes = notesReadyState.notes ∧
    handleGenerateNotes notesReadyState (.error (lit "boom")) =
      { notesReadyState with error := lit "boom", isGenerating := false } ∧
    (exec ⟨notesReadyState, 0, 0⟩
        (.clickGenerate :: [.clickUpload] ++ [.generateSettled (.error (lit "boom"))])).ui =
      { (exec ⟨notesReadyState, 0, 0⟩ (.clickGenerate :: [.clickUpload])).ui with
        error := lit "boom", isGenerating := false } :=
  ⟨by decide,
   (handleGenerateNotes_failure notesReadyState
      { fileId := lit "abc123", filename := lit "notes.pdf" } (lit "boom") (by decide)).1,
   (handleGenerateNotes_failure notesReadyState
      { fileId := lit "abc123", filename := lit "notes.pdf" } (lit "boom")
      (by decide)).2.2.2.1 (by decide),
   ((handleGenerateNotes_failure notesReadyState
      { fileId := lit "abc123", filename := lit "notes.pdf" } (lit "boom")
      (by decide)).2.2.2.2.2 ⟨notesReadyState, 0, 0⟩ [.clickUpload]
      rfl (by decide) (by decide) (by decide)).2.1⟩

end SmartNotes
